import Mathlib

/-!
Verification of the audVis audio-visualizer rendering core (`src/script.js`).

The JavaScript source is shallowly embedded: per-frame numeric data
(`Uint8Array` / `Float32Array` contents) is modelled as `List ℚ`, the
IEEE-754 arithmetic of the source as exact rational arithmetic, and the
mutable per-instance fields of the `AudioVisualizer` class as explicit
state records threaded through the step functions.  Each definition mirrors
one function (or one self-contained effect of a function) of the source,
with a comment pointing at the source lines it embeds.
-/

namespace AudVis

/-! ## Spectrum conditioner (script.js 818-841, 594-608) -/

/-- Start index of the high-end boost region, `Math.floor(length * 0.6)`
(script.js line 823).  For natural `n` the float expression
`Math.floor(n * 0.6)` agrees with the exact `⌊6n/10⌋`. -/
def highEndStart (n : ℕ) : ℕ := 6 * n / 10

/-- Multiplier applied to a bin in the boost region (script.js lines 829-834):
`frequencyPosition = (i - highEndStart) / (length - highEndStart)`,
`boostAmount = 0.5 + frequencyPosition * 0.8`, multiplier `1 + boostAmount`. -/
def boostMultiplier (n i : ℕ) : ℚ :=
  1 + (1 / 2 + (((i - highEndStart n : ℕ) : ℚ) / ((n - highEndStart n : ℕ) : ℚ)) * (4 / 5))

/-- High-end frequency boost (script.js `applyHighEndBoost`, lines 819-841):
bins at or above `highEndStart` are multiplied by `boostMultiplier` and
clamped to 255; bins below it are copied unchanged; an empty input is
returned as-is. -/
def applyHighEndBoost (data : List ℚ) : List ℚ :=
  if data.isEmpty then data
  else
    data.mapIdx fun i value =>
      if highEndStart data.length ≤ i then
        min 255 (value * boostMultiplier data.length i)
      else value

/-- Smoothing factor `alpha = 0.15` (script.js line 603). -/
def smoothAlpha : ℚ := 3 / 20

/-- One exponential-moving-average step for one bin (script.js lines 604-608):
`smoothed[i] = alpha * current + (1 - alpha) * smoothed[i]`. -/
def smoothStep (current prev : ℚ) : ℚ :=
  smoothAlpha * current + (1 - smoothAlpha) * prev

/-- Conditioner state carried by the visualizer across frames:
`this.boostedFrequencyData` (absent until the first conditioned frame) and
`this.smoothedFrequencyData`. -/
structure CondState where
  boosted : Option (List ℚ)
  smoothed : List ℚ
  deriving DecidableEq

/-- One conditioning pass of the animation callback (script.js lines 587-609):
skipped entirely when the raw sample is empty; otherwise the boosted data is
recomputed from the raw sample, the smoothing buffer re-zeroed if its length
does not match, and each bin smoothed with `smoothStep`. -/
def conditionStep (raw : List ℚ) (s : CondState) : CondState :=
  if raw.isEmpty then s
  else
    let b := applyHighEndBoost raw
    let prev := if s.smoothed.length = raw.length then s.smoothed
                else List.replicate raw.length 0
    { boosted := some b, smoothed := List.zipWith smoothStep b prev }

/-! ### Basic lemmas about the boost -/

lemma highEndStart_lt {n : ℕ} (hn : 1 ≤ n) : highEndStart n < n := by
  have h10 : 0 < 10 := by norm_num
  rw [highEndStart, Nat.div_lt_iff_lt_mul h10]
  omega

lemma applyHighEndBoost_length (data : List ℚ) :
    (applyHighEndBoost data).length = data.length := by
  rw [applyHighEndBoost]
  split
  · rfl
  · simp [List.length_mapIdx]

lemma applyHighEndBoost_getD (data : List ℚ) (i : ℕ) (hi : i < data.length) :
    (applyHighEndBoost data).getD i 0 =
      if highEndStart data.length ≤ i then
        min 255 (data.getD i 0 * boostMultiplier data.length i)
      else data.getD i 0 := by
  have hne : ¬ data.isEmpty := by
    cases data with
    | nil => simp at hi
    | cons a l => simp
  rw [applyHighEndBoost, if_neg hne]
  have hlen : i < (data.mapIdx fun i value =>
      if highEndStart data.length ≤ i then
        min 255 (value * boostMultiplier data.length i)
      else value).length := by
    simpa [List.length_mapIdx] using hi
  rw [List.getD_eq_get _ _ hlen, List.get_mapIdx data _ i hi,
    List.getD_eq_get _ _ hi]

/-- C2 counterexample: on a 10-bin spectrum with every raw value 100, the
final bin (index 9) is boosted with multiplier `2.1`, giving `210`; the
claimed multiplier `2.3` at the final bin would give `230 = min 255 230`.
The code reaches `2.3` only at the (out-of-range) index `length`, never at
index `length - 1`. -/
theorem highEndBoost_finalBin_counterexample :
    (applyHighEndBoost (List.replicate 10 (100 : ℚ))).getD 9 0 = 210 ∧
    min (255 : ℚ) (100 * (23 / 10)) = 230 ∧ (210 : ℚ) ≠ 230 := by
  refine ⟨?_, by rw [min_eq_right (by norm_num)]; norm_num, by norm_num⟩
  have h9 : (List.replicate 10 (100 : ℚ)).getD 9 0 = 100 := by
    rw [List.getD_eq_getElem _ _ (by simp)]
    simp
  rw [applyHighEndBoost_getD _ 9 (by simp), List.length_replicate,
    if_pos (by norm_num [highEndStart]), h9, boostMultiplier]
  norm_num [highEndStart]

/-- C2 amended: for every raw spectrum and bin index `i < N`, the boosted
value equals the raw value for `i` below `⌊0.6·N⌋`, and equals the raw value
times `boostMultiplier`, clamped at 255, for `i` at or above `⌊0.6·N⌋`.
The multiplier scales linearly in `i` with value `3/2` at the boost-region
start, and equals `23/10` only at the hypothetical index `N` one past the
final bin (so the final bin's multiplier is `3/2 + (4/5)·(N-1-s)/(N-s)`,
strictly below `23/10`), not `23/10` at index `N-1` as the claim states. -/
theorem highEndBoost_profile (data : List ℚ) (i : ℕ) (hi : i < data.length) :
    (applyHighEndBoost data).length = data.length ∧
    (i < highEndStart data.length →
      (applyHighEndBoost data).getD i 0 = data.getD i 0) ∧
    (highEndStart data.length ≤ i →
      (applyHighEndBoost data).getD i 0 =
        min 255 (data.getD i 0 * boostMultiplier data.length i)) ∧
    (boostMultiplier data.length i =
      3 / 2 + (((i - highEndStart data.length : ℕ) : ℚ) /
        ((data.length - highEndStart data.length : ℕ) : ℚ)) * (4 / 5)) ∧
    boostMultiplier data.length (highEndStart data.length) = 3 / 2 ∧
    boostMultiplier data.length data.length = 23 / 10 := by
  refine ⟨applyHighEndBoost_length data, ?_, ?_, ?_, ?_, ?_⟩
  · intro h
    rw [applyHighEndBoost_getD data i hi, if_neg (by omega)]
  · intro h
    rw [applyHighEndBoost_getD data i hi, if_pos h]
  · rw [boostMultiplier]; ring
  · rw [boostMultiplier]
    norm_num
  · have h1 : 1 ≤ data.length := by omega
    have hlt : highEndStart data.length < data.length := highEndStart_lt h1
    have hne : ((data.length - highEndStart data.length : ℕ) : ℚ) ≠ 0 := by
      have : data.length - highEndStart data.length ≠ 0 := by omega
      exact_mod_cast this
    rw [boostMultiplier, div_self hne]
    ring

/-! ### Temporal smoothing as a contraction (C3) -/

/-- Value of one bin of the smoothing buffer after `n` animation frames in
which the boosted input for that bin is held at the constant `c`
(each frame applies `smoothStep c` to the previous buffer value,
script.js lines 603-608). -/
def smoothIter (c s0 : ℚ) : ℕ → ℚ
  | 0 => s0
  | n + 1 => smoothStep c (smoothIter c s0 n)

lemma smoothIter_sub (c s0 : ℚ) (n : ℕ) :
    smoothIter c s0 (n + 1) - c = (17 / 20) * (smoothIter c s0 n - c) := by
  show smoothStep c (smoothIter c s0 n) - c = _
  rw [smoothStep, smoothAlpha]
  ring

lemma smoothIter_dist (c s0 : ℚ) (n : ℕ) :
    |smoothIter c s0 n - c| = (17 / 20) ^ n * |s0 - c| := by
  induction n with
  | zero => simp [smoothIter]
  | succ n ih =>
      rw [smoothIter_sub, abs_mul, ih, abs_of_nonneg (by norm_num : (0:ℚ) ≤ 17 / 20)]
      ring

lemma smoothIter_nonneg (s0 : ℚ) (h : 0 ≤ s0) (n : ℕ) : 0 ≤ smoothIter 0 s0 n := by
  induction n with
  | zero => exact h
  | succ n ih =>
      show 0 ≤ smoothStep 0 (smoothIter 0 s0 n)
      rw [smoothStep, smoothAlpha]
      nlinarith

/-- C3: one smoothing step computes `0.15 * boosted + 0.85 * prev`; holding
the boosted input at a constant `c` shrinks the distance to `c` by the
factor `0.85` each frame (so from an all-zero boosted input the buffer value
decays monotonically toward zero), and 29 frames suffice to come within 1%
of `c` whenever the start value is within `c` of the target (in particular
when starting from a zeroed buffer). -/
theorem smoothing_contraction (c s0 : ℚ) :
    (∀ b s : ℚ, smoothStep b s = (3 / 20) * b + (17 / 20) * s) ∧
    (∀ n, |smoothIter c s0 (n + 1) - c| = (17 / 20) * |smoothIter c s0 n - c|) ∧
    (∀ n, |smoothIter c s0 n - c| = (17 / 20) ^ n * |s0 - c|) ∧
    (0 ≤ s0 → ∀ n, smoothIter 0 s0 (n + 1) ≤ smoothIter 0 s0 n) ∧
    (|s0 - c| ≤ c → |smoothIter c s0 29 - c| ≤ (1 / 100) * c) := by
  refine ⟨?_, ?_, smoothIter_dist c s0, ?_, ?_⟩
  · intro b s
    rw [smoothStep, smoothAlpha]
    ring
  · intro n
    rw [smoothIter_sub, abs_mul, abs_of_nonneg (by norm_num : (0:ℚ) ≤ 17 / 20)]
  · intro h n
    have h0 := smoothIter_nonneg s0 h n
    have hsub := smoothIter_sub 0 s0 n
    simp only [sub_zero] at hsub
    nlinarith
  · intro h
    have hc : 0 ≤ c := le_trans (abs_nonneg _) h
    have hp : ((17 : ℚ) / 20) ^ 29 ≤ 1 / 100 := by norm_num
    calc |smoothIter c s0 29 - c| = (17 / 20) ^ 29 * |s0 - c| :=
          smoothIter_dist c s0 29
      _ ≤ (17 / 20) ^ 29 * c := by
          exact mul_le_mul_of_nonneg_left h (by positivity)
      _ ≤ (1 / 100) * c := mul_le_mul_of_nonneg_right hp hc

/-- Witness for `smoothing_contraction`: target 100 from a zeroed buffer. -/
theorem smoothing_contraction_witness :
    |(0 : ℚ) - 100| ≤ 100 ∧ |smoothIter 100 0 29 - 100| ≤ (1 / 100) * 100 :=
  ⟨by norm_num, (smoothing_contraction 100 0).2.2.2.2 (by norm_num)⟩

/-- Witness for `highEndBoost_profile` at a concrete input. -/
theorem highEndBoost_profile_witness :
    9 < (List.replicate 10 (100 : ℚ)).length ∧
    boostMultiplier (List.replicate 10 (100 : ℚ)).length
      (List.replicate 10 (100 : ℚ)).length = 23 / 10 :=
  ⟨by simp, (highEndBoost_profile (List.replicate 10 (100 : ℚ)) 9
    (by simp)).2.2.2.2.2⟩

/-! ## Data selection by the drawing modes (script.js 1007-1012 and copies) -/

/-- Data selection shared by the frequency2x/3x/4x, circles and starlight
modes (script.js lines 1007-1012, 1064-1069, 1142-1147, 1217-1222,
1303-1308): `this.boostedFrequencyData ||
(this.smoothedFrequencyData && this.smoothedFrequencyData.length ===
this.frequencyData.length ? this.smoothedFrequencyData :
this.frequencyData)`.  `none` models an absent (falsy) buffer. -/
def selectData (boosted : Option (List ℚ)) (smoothed raw : List ℚ) : List ℚ :=
  match boosted with
  | some b => b
  | none => if smoothed.length = raw.length then smoothed else raw

/-- Data selection of the retro-box mode (script.js lines 1402-1405):
`this.boostedFrequencyData || this.smoothedFrequencyData ||
this.frequencyData`. -/
def selectDataRetro (boosted smoothed : Option (List ℚ)) (raw : List ℚ) : List ℚ :=
  match boosted with
  | some b => b
  | none =>
    match smoothed with
    | some s => s
    | none => raw

/-- Per-bin value consumed by the circular mode (script.js line 989):
`this.frequencyData[i] * this.sensitivity` — the RAW sample, not the
selected data. -/
def circularValue (raw : List ℚ) (sens : ℚ) (i : ℕ) : ℚ := raw.getD i 0 * sens

/-- Per-bin value consumed by the bar-family modes (script.js lines 1043,
1100, 1179, 1241, 1352): selected data value times sensitivity. -/
def barsValue (boosted : Option (List ℚ)) (smoothed raw : List ℚ)
    (sens : ℚ) (i : ℕ) : ℚ :=
  (selectData boosted smoothed raw).getD i 0 * sens

/-- Per-bin value consumed by the retro-box mode (script.js line 1434):
`data[dataIndex] || 0` — no sensitivity factor appears in the source. -/
def retroValue (boosted smoothed : Option (List ℚ)) (raw : List ℚ) (i : ℕ) : ℚ :=
  (selectDataRetro boosted smoothed raw).getD i 0

lemma conditionStep_boosted (raw : List ℚ) (s : CondState) (h : raw ≠ []) :
    (conditionStep raw s).boosted = some (applyHighEndBoost raw) := by
  rw [conditionStep, if_neg (by simpa using h)]

lemma conditionStep_smoothed_length (raw : List ℚ) (s : CondState) (h : raw ≠ []) :
    (conditionStep raw s).smoothed.length = raw.length := by
  rw [conditionStep, if_neg (by simpa using h)]
  simp only [List.length_zipWith, applyHighEndBoost_length]
  split <;> simp_all

lemma conditionStep_smoothed_getD (raw : List ℚ) (s : CondState) (h : raw ≠ [])
    (i : ℕ) (hi : i < raw.length) :
    (conditionStep raw s).smoothed.getD i 0 =
      smoothStep ((applyHighEndBoost raw).getD i 0)
        ((if s.smoothed.length = raw.length then s.smoothed
          else List.replicate raw.length 0).getD i 0) := by
  rw [conditionStep, if_neg (by simpa using h)]
  have hb : (applyHighEndBoost raw).length = raw.length := applyHighEndBoost_length raw
  have hp : (if s.smoothed.length = raw.length then s.smoothed
      else List.replicate raw.length 0).length = raw.length := by
    split <;> simp_all
  have hz : i < (List.zipWith smoothStep (applyHighEndBoost raw)
      (if s.smoothed.length = raw.length then s.smoothed
       else List.replicate raw.length 0)).length := by
    simp only [List.length_zipWith, hb, hp, min_self]
    exact hi
  rw [List.getD_eq_getElem _ _ hz, List.getElem_zipWith,
    List.getD_eq_getElem _ _ (by omega : i < (applyHighEndBoost raw).length),
    List.getD_eq_getElem _ _ (by omega : i <
      (if s.smoothed.length = raw.length then s.smoothed
       else List.replicate raw.length 0).length)]

/-- C1 counterexample: one conditioned frame with raw sample `[200, 200]`
and a zeroed smoothing buffer.  The conditioned (post-smoothing) value of
bin 0 is `30`, but the bar-family modes consume `200` (the boosted,
pre-smoothing value) and the circular mode consumes `200` (the raw value):
the drawing modes do NOT read the post-smoothing conditioned spectrum. -/
theorem conditioned_spectrum_not_used_counterexample :
    barsValue (conditionStep [200, 200] ⟨none, [0, 0]⟩).boosted
        (conditionStep [200, 200] ⟨none, [0, 0]⟩).smoothed [200, 200] 1 0 = 200 ∧
    circularValue [200, 200] 1 0 = 200 ∧
    (conditionStep [200, 200] ⟨none, [0, 0]⟩).smoothed.getD 0 0 = 30 ∧
    (200 : ℚ) ≠ 30 := by
  have hb0 : (applyHighEndBoost [(200 : ℚ), 200]).getD 0 0 = 200 := by
    rw [applyHighEndBoost_getD _ 0 (by simp)]
    norm_num [highEndStart]
  refine ⟨?_, ?_, ?_, by norm_num⟩
  · rw [barsValue, conditionStep_boosted _ _ (by simp), selectData, hb0]
    norm_num
  · rw [circularValue]
    norm_num
  · rw [conditionStep_smoothed_getD _ _ (by simp) 0 (by simp), hb0]
    norm_num [smoothStep, smoothAlpha]

/-- C1 amended: after a conditioning pass on a nonempty raw sample, the
bar-family modes (frequency2x/3x/4x, circles, starlight) and the retro-box
mode all select the boosted PRE-smoothing data (the `||` chain
short-circuits on `boostedFrequencyData`), while the circular mode reads
the raw sample directly; the post-smoothing conditioned spectrum is only
the fallback taken when no boosted data exists. -/
theorem drawing_data_sources (raw : List ℚ) (s0 : CondState) (sens : ℚ)
    (h : raw ≠ []) :
    selectData (conditionStep raw s0).boosted
      (conditionStep raw s0).smoothed raw = applyHighEndBoost raw ∧
    selectDataRetro (conditionStep raw s0).boosted
      (some (conditionStep raw s0).smoothed) raw = applyHighEndBoost raw ∧
    (∀ i, circularValue raw sens i = raw.getD i 0 * sens) ∧
    selectData none (conditionStep raw s0).smoothed raw =
      (conditionStep raw s0).smoothed := by
  refine ⟨?_, ?_, fun i => rfl, ?_⟩
  · rw [conditionStep_boosted _ _ h, selectData]
  · rw [conditionStep_boosted _ _ h, selectDataRetro]
  · rw [selectData, if_pos (conditionStep_smoothed_length raw s0 h)]

/-- Witness for `drawing_data_sources` at a concrete input. -/
theorem drawing_data_sources_witness :
    ([(5 : ℚ)] ≠ []) ∧
    selectData (conditionStep [(5 : ℚ)] ⟨none, []⟩).boosted
      (conditionStep [(5 : ℚ)] ⟨none, []⟩).smoothed [(5 : ℚ)] =
        applyHighEndBoost [(5 : ℚ)] :=
  ⟨by simp, (drawing_data_sources [(5 : ℚ)] ⟨none, []⟩ 1 (by simp)).1⟩

/-! ## Sensitivity usage per mode (C4) -/

/-- Ring radius of the circular mode (script.js line 990): base radius plus
`(value / 255) * 100`, with `value = raw[i] * sensitivity`. -/
def circularRadius (raw : List ℚ) (sens base : ℚ) (i : ℕ) : ℚ :=
  base + (circularValue raw sens i / 255) * 100

/-- Bar height of the mirrored-bars (frequency2x) mode (script.js lines
1020, 1043-1044): `(value / 255) * (canvasHeight * 0.8)` with
`value = data[i] * sensitivity`. -/
def bars2xHeight (data : List ℚ) (sens canvasH : ℚ) (i : ℕ) : ℚ :=
  (data.getD i 0 * sens / 255) * (canvasH * (4 / 5))

/-- Retro-box bar length (script.js lines 1409, 1433-1438):
`dataIndex = ⌊i · length / maxBars⌋`, `value = data[dataIndex] || 0`,
`barLength = (value / 255) * (height * 0.8) * 0.6 + 10`.  The `sens`
argument is the sensitivity knob available to every mode; the retro-box
source never reads it, so the definition ignores it. -/
def retroBarLength (boosted smoothed : Option (List ℚ)) (raw : List ℚ)
    (sens canvasH : ℚ) (i maxBars : ℕ) : ℚ :=
  (retroValue boosted smoothed raw
      (i * (selectDataRetro boosted smoothed raw).length / maxBars) / 255) *
    (canvasH * (4 / 5)) * (3 / 5) + 10

/-- C4 counterexample: the retro-box mode draws from `data[dataIndex]`
without the sensitivity factor.  With data `[100]` and sensitivity `2` the
mode consumes `100`, not `200`, and its bar length at sensitivity `2`
coincides with its bar length at sensitivity `1`. -/
theorem retroBox_ignores_sensitivity_counterexample :
    retroValue (some [(100 : ℚ)]) none [] 0 = 100 ∧
    (100 : ℚ) ≠ 100 * 2 ∧
    retroBarLength (some [(100 : ℚ)]) none [] 2 600 0 1 =
      retroBarLength (some [(100 : ℚ)]) none [] 1 600 0 1 := by
  refine ⟨?_, by norm_num, rfl⟩
  rw [retroValue, selectDataRetro]
  norm_num

/-- C4 amended: every drawing mode except retro-box multiplies the spectrum
value by the sensitivity before any geometry or color decision (so circular
ring offsets and frequency2x bar heights scale linearly in the
sensitivity), while the retro-box mode consumes the selected value with no
sensitivity factor, making its bar length independent of the sensitivity
setting. -/
theorem sensitivity_scaling (boosted : Option (List ℚ))
    (smoothed raw data : List ℚ) (sens base canvasH : ℚ) (i maxBars : ℕ) :
    barsValue boosted smoothed raw sens i =
      (selectData boosted smoothed raw).getD i 0 * sens ∧
    circularRadius raw sens base i - base =
      sens * (circularRadius raw 1 base i - base) ∧
    bars2xHeight data sens canvasH i = sens * bars2xHeight data 1 canvasH i ∧
    (∀ s₁ s₂ : ℚ, retroBarLength boosted smoothed raw s₁ canvasH i maxBars =
      retroBarLength boosted smoothed raw s₂ canvasH i maxBars) := by
  refine ⟨rfl, ?_, ?_, fun s₁ s₂ => rfl⟩
  · rw [circularRadius, circularRadius, circularValue, circularValue]
    ring
  · rw [bars2xHeight, bars2xHeight]
    ring

/-! ## Mirrored-bars (frequency2x) layout (script.js 1003-1056) -/

/-- Horizontal spacing per bin on each half of the canvas (script.js line
1018): `canvasWidth / 2 / totalBars`. -/
def perSideSpacing (canvasW : ℚ) (n : ℕ) : ℚ := canvasW / 2 / (n : ℚ)

/-- Bar width (script.js line 1019): spacing expanded by 5px. -/
def bars2xBarWidth (canvasW : ℚ) (n : ℕ) : ℚ := perSideSpacing canvasW n + 5

/-- Left x of the i-th right-side bar (script.js lines 1048-1049). -/
def bars2xXRight (canvasW : ℚ) (n i : ℕ) : ℚ :=
  canvasW / 2 + (i : ℚ) * perSideSpacing canvasW n +
    (perSideSpacing canvasW n - bars2xBarWidth canvasW n) / 2

/-- Left x of the i-th left-side (mirrored) bar (script.js lines 1053-1054). -/
def bars2xXLeft (canvasW : ℚ) (n i : ℕ) : ℚ :=
  canvasW / 2 - ((i : ℚ) + 1) * perSideSpacing canvasW n +
    (perSideSpacing canvasW n - bars2xBarWidth canvasW n) / 2

/-- The left-side bar of index `i` is exactly the mirror image of the
right-side bar of index `i` about the vertical center line: its left edge
sits at `canvasW - xRight - barWidth`. -/
lemma bars2x_mirror (canvasW : ℚ) (n i : ℕ) :
    bars2xXLeft canvasW n i =
      canvasW - bars2xXRight canvasW n i - bars2xBarWidth canvasW n := by
  rw [bars2xXLeft, bars2xXRight, bars2xBarWidth, perSideSpacing]
  ring

/-- C5 counterexample: with every raw bin at 200, sensitivity 1 and a
1000x600 canvas, the frequency2x mode draws from the boosted data, so bar
127 (inside the boost region, where 200 is boosted and clamped to 255) has
height `480`, not the claimed `(200/255)*0.8*600 = 6400/17 ≈ 376.47` that
bar 0 has: the bars do NOT all share the claimed height. -/
theorem bars2x_uniform_height_counterexample :
    bars2xHeight (applyHighEndBoost (List.replicate 128 (200 : ℚ))) 1 600 127 = 480 ∧
    bars2xHeight (applyHighEndBoost (List.replicate 128 (200 : ℚ))) 1 600 0 = 6400 / 17 ∧
    (6400 / 17 : ℚ) = (200 / 255) * ((4 / 5) * 600) ∧
    (480 : ℚ) ≠ 6400 / 17 := by
  have h127 : (List.replicate 128 (200 : ℚ)).getD 127 0 = 200 := by
    rw [List.getD_eq_getElem _ _ (by simp)]
    simp
  have h0 : (List.replicate 128 (200 : ℚ)).getD 0 0 = 200 := by
    rw [List.getD_eq_getElem _ _ (by simp)]
    simp
  refine ⟨?_, ?_, by norm_num, by norm_num⟩
  · rw [bars2xHeight, applyHighEndBoost_getD _ 127 (by simp),
      List.length_replicate, if_pos (by norm_num [highEndStart]), h127,
      boostMultiplier]
    norm_num [highEndStart]
  · rw [bars2xHeight, applyHighEndBoost_getD _ 0 (by simp),
      List.length_replicate, if_neg (by norm_num [highEndStart]), h0]
    norm_num

/-- C5 amended: in the all-bins-200, sensitivity-1, 1000x600 scenario the
frequency2x mode draws every bar below the boost region (index < 76) with
the claimed height `(200/255)*0.8*600 = 6400/17 ≈ 376.47` px; bars in the
boost region (index ≥ 76) are boosted and clamped to 255 and so have height
`0.8*600 = 480` px; and the layout is symmetric about the horizontal center
of the canvas (each left bar is the mirror image of the right bar of the
same index). -/
theorem bars2x_scenario_heights (i : ℕ) (hi : i < 128) :
    (i < 76 →
      bars2xHeight (applyHighEndBoost (List.replicate 128 (200 : ℚ))) 1 600 i
        = 6400 / 17) ∧
    (76 ≤ i →
      bars2xHeight (applyHighEndBoost (List.replicate 128 (200 : ℚ))) 1 600 i
        = 480) ∧
    bars2xXLeft 1000 128 i =
      1000 - bars2xXRight 1000 128 i - bars2xBarWidth 1000 128 ∧
    (6400 / 17 : ℚ) = (200 / 255) * ((4 / 5) * 600) := by
  have hgd : (List.replicate 128 (200 : ℚ)).getD i 0 = 200 := by
    rw [List.getD_eq_getElem _ _ (by simpa using hi)]
    simp only [List.getElem_replicate]
  have hs : highEndStart 128 = 76 := by norm_num [highEndStart]
  refine ⟨?_, ?_, bars2x_mirror 1000 128 i, by norm_num⟩
  · intro h
    rw [bars2xHeight, applyHighEndBoost_getD _ i (by simpa using hi),
      List.length_replicate, if_neg (by omega), hgd]
    norm_num
  · intro h
    have hmul : boostMultiplier 128 i =
        3 / 2 + (((i - 76 : ℕ) : ℚ) / ((52 : ℕ) : ℚ)) * (4 / 5) := by
      rw [boostMultiplier, hs]
      norm_num
      ring
    have hge : (255 : ℚ) ≤ 200 * boostMultiplier 128 i := by
      rw [hmul]
      have : (0 : ℚ) ≤ (((i - 76 : ℕ) : ℚ) / ((52 : ℕ) : ℚ)) * (4 / 5) := by
        positivity
      nlinarith
    rw [bars2xHeight, applyHighEndBoost_getD _ i (by simpa using hi),
      List.length_replicate, if_pos (by omega), hgd,
      min_eq_left hge]
    norm_num

/-- Witness for `bars2x_scenario_heights` at concrete bar indices. -/
theorem bars2x_scenario_heights_witness :
    (0 : ℕ) < 128 ∧ (0 : ℕ) < 76 ∧
    bars2xHeight (applyHighEndBoost (List.replicate 128 (200 : ℚ))) 1 600 0
      = 6400 / 17 :=
  ⟨by norm_num, by norm_num, (bars2x_scenario_heights 0 (by norm_num)).1 (by norm_num)⟩

/-! ## Raindrop particles (script.js 843-909) -/

/-- A raindrop particle (script.js lines 845-853). -/
structure Raindrop where
  x : ℚ
  y : ℚ
  width : ℚ
  height : ℚ
  speed : ℚ
  alpha : ℚ
  value : ℚ
  deriving DecidableEq

/-- Raindrop creation (script.js `createRaindrop`, lines 844-855): centered
on the bar, at the bar's bottom edge, 30% of the bar width (min 1px), 10%
of the bar height (min 2px), speed `1.5 + (value/255)*2.5`, alpha `0.8`. -/
def createRaindrop (x y width height value : ℚ) : Raindrop where
  x := x + width / 2
  y := y + height
  width := max 1 (width * (3 / 10))
  height := max 2 (height * (1 / 10))
  speed := 3 / 2 + (value / 255) * (5 / 2)
  alpha := 4 / 5
  value := value

/-- One per-cycle advance of a single raindrop (script.js lines 861-865):
move down by `speed`, fade by `0.005`. -/
def fallFade (r : Raindrop) : Raindrop :=
  { r with y := r.y + r.speed, alpha := r.alpha - 1 / 200 }

/-- Removal condition (script.js line 868): below the canvas bottom edge or
fully transparent. -/
def raindropRemoved (canvasH : ℚ) (r : Raindrop) : Prop :=
  r.y > canvasH ∨ r.alpha ≤ 0

instance (canvasH : ℚ) (r : Raindrop) : Decidable (raindropRemoved canvasH r) :=
  inferInstanceAs (Decidable (_ ∨ _))

/-- One `updateRaindrops` cycle (script.js lines 857-872): the backward
for-loop with `splice` advances every raindrop and removes exactly those
meeting the removal condition, preserving the order of the survivors. -/
def updateRaindrops (canvasH : ℚ) (rs : List Raindrop) : List Raindrop :=
  (rs.map fallFade).filter fun r => decide (¬ raindropRemoved canvasH r)

/-- State of a single raindrop after `n` update cycles. -/
def dropAfter (r : Raindrop) : ℕ → Raindrop
  | 0 => r
  | n + 1 => fallFade (dropAfter r n)

lemma dropAfter_speed (r : Raindrop) (n : ℕ) : (dropAfter r n).speed = r.speed := by
  induction n with
  | zero => rfl
  | succ n ih => rw [dropAfter, fallFade, ih]

lemma dropAfter_y (r : Raindrop) (n : ℕ) :
    (dropAfter r n).y = r.y + (n : ℚ) * r.speed := by
  induction n with
  | zero => simp [dropAfter]
  | succ n ih =>
      show (fallFade (dropAfter r n)).y = _
      rw [fallFade, ih, dropAfter_speed]
      push_cast
      ring

lemma dropAfter_alpha (r : Raindrop) (n : ℕ) :
    (dropAfter r n).alpha = r.alpha - (n : ℚ) * (1 / 200) := by
  induction n with
  | zero => simp [dropAfter]
  | succ n ih =>
      show (fallFade (dropAfter r n)).alpha = _
      rw [fallFade, ih]
      push_cast
      ring

/-- C6: a raindrop is created with alpha 0.8 and speed `1.5+(value/255)*2.5`;
each update cycle moves it down by its speed and fades it by 0.005; the
update pass removes a raindrop exactly when its y exceeds the canvas height
or its alpha is ≤ 0; and a raindrop that stays inside the canvas (hypotheses:
nonnegative source value, so the speed is positive, and the 160-cycle travel
stays above the bottom edge) survives cycles 1..159 and is removed on
exactly the 160th cycle, when its alpha reaches 0. -/
theorem raindrop_lifecycle (x y width height value canvasH : ℚ)
    (hv : 0 ≤ value)
    (hstay : y + height + 160 * (3 / 2 + (value / 255) * (5 / 2)) ≤ canvasH) :
    (createRaindrop x y width height value).alpha = 4 / 5 ∧
    (createRaindrop x y width height value).speed =
      3 / 2 + (value / 255) * (5 / 2) ∧
    (∀ r : Raindrop, (fallFade r).y = r.y + r.speed ∧
      (fallFade r).alpha = r.alpha - 1 / 200) ∧
    (∀ r : Raindrop, updateRaindrops canvasH [r] =
      if raindropRemoved canvasH (fallFade r) then [] else [fallFade r]) ∧
    (∀ n, 1 ≤ n → n ≤ 159 →
      ¬ raindropRemoved canvasH (dropAfter (createRaindrop x y width height value) n)) ∧
    raindropRemoved canvasH (dropAfter (createRaindrop x y width height value) 160) := by
  set r := createRaindrop x y width height value with hr
  have hrspeed : r.speed = 3 / 2 + (value / 255) * (5 / 2) := rfl
  have hry : r.y = y + height := rfl
  have hralpha : r.alpha = 4 / 5 := rfl
  have hspeed_pos : 0 ≤ r.speed := by
    rw [hrspeed]
    have : 0 ≤ value / 255 := by positivity
    nlinarith
  refine ⟨rfl, rfl, fun q => ⟨rfl, rfl⟩, ?_, ?_, ?_⟩
  · intro q
    rw [updateRaindrops]
    simp only [List.map_cons, List.map_nil]
    by_cases h : raindropRemoved canvasH (fallFade q)
    · simp [List.filter, h]
    · simp [List.filter, h]
  · intro n h1 h159
    rw [raindropRemoved, dropAfter_y, dropAfter_alpha, hry, hralpha, hrspeed]
    push_neg
    constructor
    · have hn : (n : ℚ) ≤ 160 := by exact_mod_cast Nat.le_of_lt_succ (by omega)
      nlinarith
    · have hn : (n : ℚ) ≤ 159 := by exact_mod_cast h159
      nlinarith
  · rw [raindropRemoved, dropAfter_alpha, hralpha]
    right
    norm_num

/-- Witness for `raindrop_lifecycle` at a concrete raindrop. -/
theorem raindrop_lifecycle_witness :
    (0 : ℚ) ≤ 100 ∧
    (0 : ℚ) + 20 + 160 * (3 / 2 + ((100 : ℚ) / 255) * (5 / 2)) ≤ 1000000 ∧
    raindropRemoved 1000000 (dropAfter (createRaindrop 0 0 10 20 100) 160) :=
  ⟨by norm_num, by norm_num,
    (raindrop_lifecycle 0 0 10 20 100 1000000 (by norm_num) (by norm_num)).2.2.2.2.2⟩

/-! ## Starfield generation (script.js 1310-1346) -/

/-- A fixed star: position and base size (script.js line 1343). -/
structure Star where
  x : ℚ
  y : ℚ
  size : ℚ
  deriving DecidableEq

/-- Squared distance between two stars.  The source compares
`Math.sqrt(dx**2 + dy**2) < minDistance` (script.js lines 1321-1325); since
both sides are nonnegative for the sizes arising here, the embedding uses
the equivalent squared comparison to stay within ℚ. -/
def distSq (a b : Star) : ℚ := (a.x - b.x) ^ 2 + (a.y - b.y) ^ 2

/-- Minimum allowed center distance (script.js line 1324):
`(size + existingStar.size) * 1.5`. -/
def minDistance (a b : Star) : ℚ := (a.size + b.size) * (3 / 2)

/-- Overlap test against all already-placed stars (script.js `isOverlapping`,
lines 1319-1328). -/
def overlapsAny (existing : List Star) (s : Star) : Prop :=
  ∃ e ∈ existing, distSq s e < minDistance s e ^ 2

instance (existing : List Star) (s : Star) : Decidable (overlapsAny existing s) :=
  List.decidableBEx _ existing

/-- Candidate star built from one random triple (script.js lines 1336-1338):
`x = rand*(W-100)+50`, `y = rand*(H-100)+50`, `size = rand*3+1`. -/
def mkStar (W H : ℚ) (c : ℚ × ℚ × ℚ) : Star where
  x := c.1 * (W - 100) + 50
  y := c.2.1 * (H - 100) + 50
  size := c.2.2 * 3 + 1

/-- The do-while placement loop for one star (script.js lines 1330-1342):
candidates are tried in order, the first non-overlapping one is kept
(flag `true`); when 100 attempts all overlap, the last attempt is kept as a
fallback (flag `false`).  `fuel` counts the attempts remaining after the
current one, `k` indexes the candidate stream. -/
def placeStarGo (W H : ℚ) (cand : ℕ → ℚ × ℚ × ℚ) (existing : List Star) :
    ℕ → ℕ → Star × Bool
  | 0, k =>
    if overlapsAny existing (mkStar W H (cand k)) then (mkStar W H (cand k), false)
    else (mkStar W H (cand k), true)
  | fuel + 1, k =>
    if overlapsAny existing (mkStar W H (cand k)) then
      placeStarGo W H cand existing fuel (k + 1)
    else (mkStar W H (cand k), true)

/-- Placement of one star with the 100-attempt budget of the source. -/
def placeStar (W H : ℚ) (cand : ℕ → ℚ × ℚ × ℚ) (existing : List Star) :
    Star × Bool :=
  placeStarGo W H cand existing 99 0

/-- Recursive worker for star generation: `k` stars still to place, `acc`
holds the stars placed so far (each paired with its success flag). -/
def genStarsAux (W H : ℚ) (cand : ℕ → ℕ → ℚ × ℚ × ℚ) :
    ℕ → List (Star × Bool) → List (Star × Bool)
  | 0, acc => acc
  | k + 1, acc =>
      genStarsAux W H cand k
        (acc ++ [placeStar W H (cand acc.length) (acc.map Prod.fst)])

/-- Star generation for one canvas-size epoch (script.js lines 1312-1346):
exactly `min binCount 128` stars, placed in order, each checked against all
previously placed stars.  `cand i` is the stream of random triples consumed
by star `i`. -/
def generateStars (W H : ℚ) (binCount : ℕ) (cand : ℕ → ℕ → ℚ × ℚ × ℚ) :
    List (Star × Bool) :=
  genStarsAux W H cand (min binCount 128) []

/-- Default entry used by `getD` on the generated list. -/
def starDefault : Star × Bool := (⟨0, 0, 0⟩, false)

/-- Pairwise separation invariant: every star whose flag records a
successful (non-fallback) placement keeps squared distance at least
`minDistance²` to every earlier star. -/
def SepOK (l : List (Star × Bool)) : Prop :=
  ∀ i j, i < j → j < l.length → (l.getD j starDefault).2 = true →
    minDistance (l.getD j starDefault).1 (l.getD i starDefault).1 ^ 2 ≤
      distSq (l.getD j starDefault).1 (l.getD i starDefault).1

/-- All stars in the list have base size at least 1. -/
def SizeOK (l : List (Star × Bool)) : Prop := ∀ p ∈ l, 1 ≤ p.1.size

lemma placeStarGo_success (W H : ℚ) (cand : ℕ → ℚ × ℚ × ℚ)
    (existing : List Star) :
    ∀ fuel k, (placeStarGo W H cand existing fuel k).2 = true →
      ¬ overlapsAny existing (placeStarGo W H cand existing fuel k).1 := by
  intro fuel
  induction fuel with
  | zero =>
      intro k hflag
      by_cases h : overlapsAny existing (mkStar W H (cand k))
      · rw [placeStarGo, if_pos h] at hflag
        simp at hflag
      · rw [placeStarGo, if_neg h]
        simpa using h
  | succ fuel ih =>
      intro k hflag
      by_cases h : overlapsAny existing (mkStar W H (cand k))
      · rw [placeStarGo, if_pos h] at hflag ⊢
        exact ih (k + 1) hflag
      · rw [placeStarGo, if_neg h]
        simpa using h

lemma placeStar_success (W H : ℚ) (cand : ℕ → ℚ × ℚ × ℚ)
    (existing : List Star) (h : (placeStar W H cand existing).2 = true) :
    ¬ overlapsAny existing (placeStar W H cand existing).1 :=
  placeStarGo_success W H cand existing 99 0 h

lemma placeStarGo_shape (W H : ℚ) (cand : ℕ → ℚ × ℚ × ℚ)
    (existing : List Star) :
    ∀ fuel k, ∃ m, (placeStarGo W H cand existing fuel k).1 = mkStar W H (cand m) := by
  intro fuel
  induction fuel with
  | zero =>
      intro k
      rw [placeStarGo]
      split <;> exact ⟨k, rfl⟩
  | succ fuel ih =>
      intro k
      rw [placeStarGo]
      split
      · exact ih (k + 1)
      · exact ⟨k, rfl⟩

lemma genStarsAux_length (W H : ℚ) (cand : ℕ → ℕ → ℚ × ℚ × ℚ) :
    ∀ k acc, (genStarsAux W H cand k acc).length = acc.length + k := by
  intro k
  induction k with
  | zero => intro acc; simp [genStarsAux]
  | succ k ih =>
      intro acc
      rw [genStarsAux, ih]
      simp
      omega

lemma sepOK_append (W H : ℚ) (cand : ℕ → ℚ × ℚ × ℚ) (acc : List (Star × Bool))
    (hacc : SepOK acc) :
    SepOK (acc ++ [placeStar W H cand (acc.map Prod.fst)]) := by
  intro i j hij hj hflag
  rw [List.length_append, List.length_cons, List.length_nil] at hj
  by_cases hjl : j < acc.length
  · have hi : i < acc.length := by omega
    have ej : (acc ++ [placeStar W H cand (acc.map Prod.fst)]).getD j starDefault =
        acc.getD j starDefault := by
      rw [List.getD_eq_getElem _ _ (by simp; omega), List.getElem_append_left hjl]
      exact (List.getD_eq_getElem _ _ hjl).symm
    have ei : (acc ++ [placeStar W H cand (acc.map Prod.fst)]).getD i starDefault =
        acc.getD i starDefault := by
      rw [List.getD_eq_getElem _ _ (by simp; omega), List.getElem_append_left hi]
      exact (List.getD_eq_getElem _ _ hi).symm
    rw [ej] at hflag
    rw [ej, ei]
    exact hacc i j hij hjl hflag
  · have hje : j = acc.length := by omega
    subst hje
    have hi : i < acc.length := hij
    have hgj : (acc ++ [placeStar W H cand (acc.map Prod.fst)]).getD acc.length starDefault =
        placeStar W H cand (acc.map Prod.fst) := by
      rw [List.getD_eq_getElem _ _ (by simp),
        List.getElem_append_right (le_refl acc.length)]
      simp
    have hgi : (acc ++ [placeStar W H cand (acc.map Prod.fst)]).getD i starDefault =
        acc.getD i starDefault := by
      rw [List.getD_eq_getElem _ _ (by simp; omega), List.getElem_append_left hi]
      exact (List.getD_eq_getElem _ _ hi).symm
    rw [hgj] at hflag
    rw [hgj, hgi]
    have hsucc := placeStar_success W H cand (acc.map Prod.fst) hflag
    rw [overlapsAny] at hsucc
    push_neg at hsucc
    have hmem : (acc.getD i starDefault).1 ∈ acc.map Prod.fst := by
      rw [List.getD_eq_getElem _ _ hi]
      exact List.mem_map_of_mem Prod.fst (List.getElem_mem hi)
    exact hsucc _ hmem

lemma sizeOK_append (W H : ℚ) (cand : ℕ → ℚ × ℚ × ℚ) (acc : List (Star × Bool))
    (hsz : ∀ k, 0 ≤ (cand k).2.2) (hacc : SizeOK acc) :
    SizeOK (acc ++ [placeStar W H cand (acc.map Prod.fst)]) := by
  intro p hp
  rw [List.mem_append] at hp
  rcases hp with hp | hp
  · exact hacc p hp
  · rw [List.mem_singleton] at hp
    subst hp
    obtain ⟨m, hm⟩ := placeStarGo_shape W H cand (acc.map Prod.fst) 99 0
    rw [placeStar, hm, mkStar]
    have := hsz m
    simp only
    nlinarith

lemma genStarsAux_inv (W H : ℚ) (cand : ℕ → ℕ → ℚ × ℚ × ℚ)
    (hsz : ∀ i k, 0 ≤ (cand i k).2.2) :
    ∀ k acc, SepOK acc → SizeOK acc →
      SepOK (genStarsAux W H cand k acc) ∧ SizeOK (genStarsAux W H cand k acc) := by
  intro k
  induction k with
  | zero => intro acc h1 h2; exact ⟨h1, h2⟩
  | succ k ih =>
      intro acc h1 h2
      rw [genStarsAux]
      exact ih _ (sepOK_append W H _ acc h1)
        (sizeOK_append W H _ acc (hsz acc.length) h2)

/-- C7: star generation produces exactly `min binCount 128` stars, and any
two stars that were both placed successfully within the 100-attempt budget
(success flag `true`, i.e. not the keep-the-last-attempt fallback) lie at
Euclidean distance at least `1.5` times the sum of their sizes.  The
hypothesis says the random stream delivers nonnegative size seeds, as
`Math.random()` does. -/
theorem star_generation (W H : ℚ) (binCount : ℕ)
    (cand : ℕ → ℕ → ℚ × ℚ × ℚ) (hsz : ∀ i k, 0 ≤ (cand i k).2.2) :
    (generateStars W H binCount cand).length = min binCount 128 ∧
    ∀ i j, i < j → j < (generateStars W H binCount cand).length →
      ((generateStars W H binCount cand).getD i starDefault).2 = true →
      ((generateStars W H binCount cand).getD j starDefault).2 = true →
      (3 / 2 : ℝ) *
          ((((generateStars W H binCount cand).getD i starDefault).1.size : ℝ) +
            (((generateStars W H binCount cand).getD j starDefault).1.size : ℝ)) ≤
        Real.sqrt
          (((((generateStars W H binCount cand).getD i starDefault).1.x : ℝ) -
              (((generateStars W H binCount cand).getD j starDefault).1.x : ℝ)) ^ 2 +
            ((((generateStars W H binCount cand).getD i starDefault).1.y : ℝ) -
              (((generateStars W H binCount cand).getD j starDefault).1.y : ℝ)) ^ 2) := by
  have hlen : (generateStars W H binCount cand).length = min binCount 128 := by
    rw [generateStars, genStarsAux_length]
    simp
  obtain ⟨hsep, hsize⟩ := genStarsAux_inv W H cand hsz (min binCount 128) []
    (by intro i j _ hj _; simp at hj) (by intro p hp; simp at hp)
  have hsep2 : SepOK (generateStars W H binCount cand) := hsep
  have hsize2 : SizeOK (generateStars W H binCount cand) := hsize
  refine ⟨hlen, ?_⟩
  intro i j hij hj hfi hfj
  set l := generateStars W H binCount cand with hl
  set a := (l.getD i starDefault).1 with ha
  set b := (l.getD j starDefault).1 with hb
  have hkey : minDistance b a ^ 2 ≤ distSq b a := hsep2 i j hij hj hfj
  have hmemi : l.getD i starDefault ∈ l := by
    rw [List.getD_eq_getElem _ _ (show i < l.length by omega)]
    exact List.getElem_mem _
  have hmemj : l.getD j starDefault ∈ l := by
    rw [List.getD_eq_getElem _ _ hj]
    exact List.getElem_mem _
  have hsa : 1 ≤ a.size := hsize2 _ hmemi
  have hsb : 1 ≤ b.size := hsize2 _ hmemj
  have hsaR : (1 : ℝ) ≤ (a.size : ℝ) := by exact_mod_cast hsa
  have hsbR : (1 : ℝ) ≤ (b.size : ℝ) := by exact_mod_cast hsb
  have hcast2 : (((b.size : ℝ) + (a.size : ℝ)) * (3 / 2)) ^ 2 ≤
      ((b.x : ℝ) - (a.x : ℝ)) ^ 2 + ((b.y : ℝ) - (a.y : ℝ)) ^ 2 := by
    have h := hkey
    rw [minDistance, distSq] at h
    have h2 : ((((b.size + a.size) * (3 / 2)) ^ 2 : ℚ) : ℝ) ≤
        (((b.x - a.x) ^ 2 + (b.y - a.y) ^ 2 : ℚ) : ℝ) := by exact_mod_cast h
    push_cast at h2
    convert h2 using 2
  have hx : (0 : ℝ) ≤ ((b.size : ℝ) + (a.size : ℝ)) * (3 / 2) := by nlinarith
  have hy : (0 : ℝ) ≤ ((b.x : ℝ) - (a.x : ℝ)) ^ 2 + ((b.y : ℝ) - (a.y : ℝ)) ^ 2 := by
    positivity
  have hsqrt : ((b.size : ℝ) + (a.size : ℝ)) * (3 / 2) ≤
      Real.sqrt (((b.x : ℝ) - (a.x : ℝ)) ^ 2 + ((b.y : ℝ) - (a.y : ℝ)) ^ 2) :=
    (Real.le_sqrt hx hy).mpr hcast2
  calc (3 / 2 : ℝ) * ((a.size : ℝ) + (b.size : ℝ))
      = ((b.size : ℝ) + (a.size : ℝ)) * (3 / 2) := by ring
    _ ≤ Real.sqrt (((b.x : ℝ) - (a.x : ℝ)) ^ 2 + ((b.y : ℝ) - (a.y : ℝ)) ^ 2) := hsqrt
    _ = Real.sqrt (((a.x : ℝ) - (b.x : ℝ)) ^ 2 + ((a.y : ℝ) - (b.y : ℝ)) ^ 2) := by
        rw [show ((b.x : ℝ) - (a.x : ℝ)) ^ 2 + ((b.y : ℝ) - (a.y : ℝ)) ^ 2 =
          ((a.x : ℝ) - (b.x : ℝ)) ^ 2 + ((a.y : ℝ) - (b.y : ℝ)) ^ 2 from by ring]

/-- Witness for `star_generation`: two stars placed from disjoint corners,
both successfully. -/
theorem star_generation_witness :
    (∀ i k : ℕ, 0 ≤ ((fun i _ => ((i : ℚ), 0, 0)) i k).2.2) ∧
    (generateStars 1000 600 2 (fun i _ => ((i : ℚ), 0, 0))).length = min 2 128 :=
  ⟨fun i k => le_refl 0,
    (star_generation 1000 600 2 (fun i _ => ((i : ℚ), 0, 0))
      (fun i k => le_refl 0)).1⟩

/-! ## Star-position cache per canvas-size epoch (script.js 113-117, 1310-1316) -/

/-- The JavaScript value held by `this.lastCanvasSize`: `drawStarlight`
stores the string `` `${w}x${h}` `` (script.js line 1315), while
`setupCanvas` stores the object `{width, height}` (script.js lines
113-117). -/
inductive SizeTag where
  | undef : SizeTag
  | str : ℕ → ℕ → SizeTag
  | obj : ℕ → ℕ → SizeTag
  deriving DecidableEq

/-- JS strict equality between the stored `lastCanvasSize` and the freshly
built `` `${w}x${h}` `` string (script.js line 1312 compares with `!==`):
a stored string is equal exactly when the dimensions match; the object
stored by `setupCanvas`, like an absent value, is never strictly equal to
any string. -/
def tagMatches : SizeTag → ℕ → ℕ → Prop
  | SizeTag.str w h, w2, h2 => w = w2 ∧ h = h2
  | SizeTag.undef, _, _ => False
  | SizeTag.obj _ _, _, _ => False

instance : ∀ (t : SizeTag) (w h : ℕ), Decidable (tagMatches t w h)
  | SizeTag.str _ _, _, _ => inferInstanceAs (Decidable (_ ∧ _))
  | SizeTag.undef, _, _ => inferInstanceAs (Decidable False)
  | SizeTag.obj _ _, _, _ => inferInstanceAs (Decidable False)

/-- The visualizer state relevant to the star cache.  `generation` counts
regenerations so that a discarded store is observable. -/
structure StarCache where
  lastCanvasSize : SizeTag
  starPositions : Option (List Star)
  generation : ℕ
  deriving DecidableEq

/-- Star-cache effect of one starlight frame (script.js lines 1310-1316):
when no positions are stored or the stored `lastCanvasSize` is not strictly
equal to the fresh size string, the star store is regenerated (the new
positions are `newStars`) and the size string stored; otherwise the frame
leaves the cache untouched. -/
def drawStarlightCache (w h : ℕ) (newStars : List Star) (s : StarCache) : StarCache :=
  if s.starPositions = none ∨ ¬ tagMatches s.lastCanvasSize w h then
    { lastCanvasSize := SizeTag.str w h, starPositions := some newStars,
      generation := s.generation + 1 }
  else s

/-- Canvas-size bookkeeping of `setupCanvas` (script.js lines 113-117),
called from `handleResize` on every resize event: stores the
`{width, height}` object into `lastCanvasSize`; the star store itself is
untouched. -/
def setupCanvasCache (w h : ℕ) (s : StarCache) : StarCache :=
  { s with lastCanvasSize := SizeTag.obj w h }

/-- Starlight frames with an unchanged canvas size never regenerate: after
one starlight frame, further frames at the same size leave the cache
exactly as it is. -/
lemma drawStarlightCache_stable (w h : ℕ) (ns ns2 : List Star) (s : StarCache) :
    drawStarlightCache w h ns2 (drawStarlightCache w h ns s) =
      drawStarlightCache w h ns s := by
  by_cases hc : s.starPositions = none ∨ ¬ tagMatches s.lastCanvasSize w h
  · have h1 : drawStarlightCache w h ns s =
        ⟨SizeTag.str w h, some ns, s.generation + 1⟩ := by
      rw [drawStarlightCache, if_pos hc]
    rw [h1, drawStarlightCache, if_neg (by simp [tagMatches])]
  · have h1 : drawStarlightCache w h ns s = s := by
      rw [drawStarlightCache, if_neg hc]
    rw [h1, drawStarlightCache, if_neg hc]

/-- C8: evaluation at the failing input.  Stars are generated by a
starlight frame at 1000x600 (the cache then holds the string "1000x600");
further frames at the same size keep them (first conjunct).  But a resize
event that leaves the dimensions at 1000x600 overwrites `lastCanvasSize`
with the `{width, height}` object, which is never strictly equal to the
fresh size string, so the very next starlight frame discards the stored
positions and regenerates (second and third conjuncts) — the code violates
the claim that a same-size resize does not discard the stored positions. -/
theorem starCache_sameSize_resize_bug :
    (drawStarlightCache 1000 600 [⟨4, 5, 6⟩]
        (drawStarlightCache 1000 600 [⟨1, 2, 3⟩]
          ⟨SizeTag.obj 1000 600, none, 0⟩)).starPositions = some [⟨1, 2, 3⟩] ∧
    (drawStarlightCache 1000 600 [⟨4, 5, 6⟩]
        (setupCanvasCache 1000 600
          (drawStarlightCache 1000 600 [⟨1, 2, 3⟩]
            ⟨SizeTag.obj 1000 600, none, 0⟩))).starPositions = some [⟨4, 5, 6⟩] ∧
    (drawStarlightCache 1000 600 [⟨4, 5, 6⟩]
        (setupCanvasCache 1000 600
          (drawStarlightCache 1000 600 [⟨1, 2, 3⟩]
            ⟨SizeTag.obj 1000 600, none, 0⟩))).generation = 2 := by
  refine ⟨?_, ?_, ?_⟩ <;>
    simp [drawStarlightCache, setupCanvasCache, tagMatches]

/-! ## Stopping the visualizer (script.js 547-562, 618-623, 722-778) -/

/-- The resource-holding state of the visualizer.  Media tracks are
modelled by their stopped flag (`true` = stopped); `micConnected` and
`screenConnected` are the nullability of `this.microphone` and
`this.screenShare`; the track lists survive the JS references being nulled
because the OS-level capture lives in the stream, not in the field. -/
structure VisState where
  micTracks : List Bool
  micConnected : Bool
  screenTracks : List Bool
  screenConnected : Bool
  audioContextOpen : Bool
  analyserSet : Bool
  gainSet : Bool
  isPlaying : Bool
  animationActive : Bool
  raindrops : List Raindrop
  lastRaindropTime : ℕ
  barRaindropTimers : List ℕ
  deriving DecidableEq

/-- `stopVisualization` (script.js lines 618-623): cancels any pending
animation frame. -/
def stopVisualization (s : VisState) : VisState := { s with animationActive := false }

/-- `stopScreenShare` (script.js lines 547-562): disconnects the
screen-share source node (nulling `this.screenShare`) and stops the
animation.  The display-media tracks are NOT stopped — `disconnect()` only
detaches the audio graph node. -/
def stopScreenShare (s : VisState) : VisState :=
  stopVisualization { s with screenConnected := false }

/-- `stopVisualizer` (script.js lines 722-778): stop the animation, stop
all microphone tracks and drop the source, close the audio context (the
second close at lines 753-756 is already a no-op), run `stopScreenShare`,
null the analyser and gain, clear `isPlaying`, and empty the raindrop store
and the per-bar raindrop timers. -/
def stopVisualizer (s : VisState) : VisState :=
  let s1 := stopVisualization s
  let s2 := if s1.micConnected then
      { s1 with micTracks := s1.micTracks.map fun _ => true, micConnected := false }
    else s1
  let s3 := if s2.audioContextOpen then { s2 with audioContextOpen := false } else s2
  let s4 := stopScreenShare s3
  let s5 := if s4.audioContextOpen then { s4 with audioContextOpen := false } else s4
  { s5 with analyserSet := false, gainSet := false, isPlaying := false,
            raindrops := [], lastRaindropTime := 0, barRaindropTimers := [] }

/-- A state in which the visualizer is running on a screen-share capture
with one audio and one video track, both live. -/
def runningScreenShare : VisState where
  micTracks := []
  micConnected := false
  screenTracks := [false, false]
  screenConnected := true
  audioContextOpen := true
  analyserSet := true
  gainSet := true
  isPlaying := true
  animationActive := true
  raindrops := [createRaindrop 0 0 10 20 100]
  lastRaindropTime := 5
  barRaindropTimers := [3, 4]

/-- C9: evaluation at the failing input.  Stopping while running on a
screen share is idempotent, leaves the visualizer not playing with the
audio context closed and the raindrop store and per-bar timers empty — but
the two screen-share media tracks are still live after the stop
(`disconnect()` never calls `track.stop()`), so capture-device resources
are NOT fully released, contradicting the claim. -/
theorem stopVisualizer_leaves_screen_tracks_live :
    (stopVisualizer runningScreenShare).isPlaying = false ∧
    (stopVisualizer runningScreenShare).audioContextOpen = false ∧
    (stopVisualizer runningScreenShare).raindrops = [] ∧
    (stopVisualizer runningScreenShare).barRaindropTimers = [] ∧
    stopVisualizer (stopVisualizer runningScreenShare) =
      stopVisualizer runningScreenShare ∧
    (stopVisualizer runningScreenShare).screenTracks = [false, false] := by
  refine ⟨rfl, rfl, rfl, rfl, ?_, rfl⟩
  rfl

/-- Explicit form of `stopVisualizer`: every field of the post-stop state,
showing in particular that `screenTracks` passes through unchanged. -/
lemma stopVisualizer_eq (s : VisState) :
    stopVisualizer s =
      { micTracks := if s.micConnected then List.replicate s.micTracks.length true
          else s.micTracks,
        micConnected := false,
        screenTracks := s.screenTracks,
        screenConnected := false,
        audioContextOpen := false,
        analyserSet := false,
        gainSet := false,
        isPlaying := false,
        animationActive := false,
        raindrops := [],
        lastRaindropTime := 0,
        barRaindropTimers := [] } := by
  rw [stopVisualizer]
  simp only [stopVisualization, stopScreenShare]
  by_cases hm : s.micConnected <;> by_cases ha : s.audioContextOpen <;>
    simp [hm, ha]

/-- General facts about `stopVisualizer` on any state: it is idempotent,
stops every microphone track, closes the audio context, empties the
particle stores, ends in the not-playing state — and leaves every
screen-share track exactly as it was. -/
theorem stopVisualizer_spec (s : VisState) :
    stopVisualizer (stopVisualizer s) = stopVisualizer s ∧
    (s.micConnected = true → ∀ b ∈ (stopVisualizer s).micTracks, b = true) ∧
    (stopVisualizer s).audioContextOpen = false ∧
    (stopVisualizer s).isPlaying = false ∧
    (stopVisualizer s).animationActive = false ∧
    (stopVisualizer s).raindrops = [] ∧
    (stopVisualizer s).barRaindropTimers = [] ∧
    (stopVisualizer s).screenTracks = s.screenTracks := by
  refine ⟨?_, ?_, ?_, ?_, ?_, ?_, ?_, ?_⟩
  · rw [stopVisualizer_eq s, stopVisualizer_eq]
    simp
  · intro hm b hb
    rw [stopVisualizer_eq s] at hb
    simp only [hm, if_true] at hb
    exact List.eq_of_mem_replicate hb
  · rw [stopVisualizer_eq s]
  · rw [stopVisualizer_eq s]
  · rw [stopVisualizer_eq s]
  · rw [stopVisualizer_eq s]
  · rw [stopVisualizer_eq s]
  · rw [stopVisualizer_eq s]

/-! ## Per-frame raindrop effects of the draw dispatch (script.js 780-816) -/

/-- The eight values of `this.visualType` (script.js lines 788-812). -/
inductive VisualType where
  | waveform : VisualType
  | circular : VisualType
  | frequency2x : VisualType
  | frequency3x : VisualType
  | frequency4x : VisualType
  | circles : VisualType
  | starlight : VisualType
  | retroBox : VisualType
  deriving DecidableEq

/-- The per-frame inputs a drawing mode sees: capture buffers, conditioner
output, sensitivity, canvas size and the wall clock (`Date.now()`). -/
structure FrameEnv where
  raw : List ℚ
  boosted : Option (List ℚ)
  smoothed : List ℚ
  sens : ℚ
  canvasW : ℚ
  canvasH : ℚ
  now : ℕ

/-- The raindrop-related mutable state: `this.raindrops` and the sparse
per-bar-position cooldown array `this.barRaindropTimers` (an absent entry
reads as 0, matching the `if (!this.barRaindropTimers[i])` initialization
at script.js lines 1118-1121). -/
structure RainState where
  raindrops : List Raindrop
  barTimers : ℕ → ℕ

/-- Bar height in the frequency3x mode (script.js lines 1077, 1101):
`(value / 255) * (canvasHeight * 0.35) * 0.6`. -/
def bars3xHeight (data : List ℚ) (sens canvasH : ℚ) (i : ℕ) : ℚ :=
  (data.getD i 0 * sens / 255) * (canvasH * (7 / 20)) * (3 / 5)

/-- Raindrop spawning for one bar position of the frequency3x mode
(script.js lines 1116-1129): when the bar height exceeds 15px and more than
`raindropInterval = 200` ms have passed since this bar position last
spawned, one raindrop is created at the right-side bar and one at the
mirrored left-side bar, and the bar's timer is set to the current time. -/
def bars3xSpawnStep (env : FrameEnv) (data : List ℚ) (n : ℕ)
    (st : List Raindrop × (ℕ → ℕ)) (i : ℕ) : List Raindrop × (ℕ → ℕ) :=
  let value := data.getD i 0 * env.sens
  let height := bars3xHeight data env.sens env.canvasH i
  if 15 < height ∧ 200 < env.now - st.2 i then
    (st.1 ++
      [createRaindrop (bars2xXRight env.canvasW n i) 0
          (bars2xBarWidth env.canvasW n) height value,
        createRaindrop (bars2xXLeft env.canvasW n i) 0
          (bars2xBarWidth env.canvasW n) height value],
      fun j => if j = i then env.now else st.2 j)
  else st

/-- Raindrop-store effect of one `drawFrequencyBars3x` frame (script.js
lines 1060-1135): nothing on an empty raw sample (early return at line
1061); otherwise spawn per bar over the selected data, then run one
`updateRaindrops` cycle (`drawRaindrops` only paints). -/
def drawFrequencyBars3xEffect (env : FrameEnv) (rs : RainState) : RainState :=
  if env.raw.isEmpty then rs
  else
    let data := selectData env.boosted env.smoothed env.raw
    let spawned := (List.range data.length).foldl
      (bars3xSpawnStep env data data.length) (rs.raindrops, rs.barTimers)
    { raindrops := updateRaindrops env.canvasH spawned.1,
      barTimers := spawned.2 }

/-- Raindrop-store effect of one `draw()` dispatch (script.js lines
780-816).  Only the `frequency3x` branch touches `this.raindrops` or
`this.barRaindropTimers`: in the whole source those fields are referenced
only in the constructor, in `stopVisualizer` (lines 763-766), in the
raindrop helpers (lines 843-909) and in `drawFrequencyBars3x` (lines
1116-1134), so every other branch of the dispatch is the identity on the
raindrop state. -/
def drawRainEffect (mode : VisualType) (env : FrameEnv) (rs : RainState) :
    RainState :=
  match mode with
  | VisualType.frequency3x => drawFrequencyBars3xEffect env rs
  | _ => rs

/-- C10: a frame rendered in any mode other than frequency3x leaves the
raindrop store and the per-bar cooldown timers completely unchanged — no
fall, no fade, no removal, no spawning — and apart from frequency3x frames
the store is emptied only by `stopVisualizer`, which clears both the store
and the timers. -/
theorem raindrops_only_in_frequency3x (mode : VisualType) (env : FrameEnv)
    (rs : RainState) (s : VisState) (h : mode ≠ VisualType.frequency3x) :
    drawRainEffect mode env rs = rs ∧
    (stopVisualizer s).raindrops = [] ∧
    (stopVisualizer s).barRaindropTimers = [] := by
  refine ⟨?_, rfl, rfl⟩
  cases mode
  case frequency3x => exact absurd rfl h
  all_goals rfl

/-- Witness for `raindrops_only_in_frequency3x` at a concrete non-3x mode. -/
theorem raindrops_only_in_frequency3x_witness :
    VisualType.circular ≠ VisualType.frequency3x ∧
    drawRainEffect VisualType.circular ⟨[], none, [], 1, 1000, 600, 0⟩
        ⟨[], fun _ => 0⟩ = ⟨[], fun _ => 0⟩ :=
  ⟨by decide,
    (raindrops_only_in_frequency3x VisualType.circular
      ⟨[], none, [], 1, 1000, 600, 0⟩ ⟨[], fun _ => 0⟩ runningScreenShare
      (by decide)).1⟩

end AudVis
